import Mathlib

/-!
Verification of the Event-Ticket management program (`streamlit_pg_06.py`).

The program keeps two tables: `tickets` and `menu`, loaded as pandas
dataframes.  We embed a ticket row as a structure and the table as a
`List Ticket` in dataframe row order.  After the load-time cleaning
(lines 37-43 of the source) `Sold`/`Visited` are booleans, `Customer` is a
string, `Visitor_Seats` and `Admit` are numeric, `Seq` is numeric, and
`TicketID` is a zero-padded string; we model the numeric columns as `Int`
and `Timestamp` as `Option String` (`None` versus the stored string of
`pd.Timestamp.now()`).  Rows whose `Seq` fails numeric coercion become NaN
and are dropped by the dashboard's `groupby`; such rows are outside the
scope of the claims and the embedding takes `Seq : Int`.

The source column `Type` is a reserved word in Lean, so the field is named
`typ`; all other fields keep the source's column names.
-/

structure Ticket where
  TicketID : String
  typ : String
  Category : String
  Admit : Int
  Seq : Int
  Sold : Bool
  Customer : String
  Visited : Bool
  Visitor_Seats : Int
  Timestamp : Option String
deriving Repr, DecidableEq

/-- `tickets.index[tickets['TicketID'] == tid][0]` followed by three
`tickets.at[idx, col] = v` assignments mutates the FIRST row satisfying a
predicate and leaves every other row unchanged.  `updateFirst p f` is that
access pattern on a list of rows. -/
def updateFirst (p : Ticket → Bool) (f : Ticket → Ticket) : List Ticket → List Ticket
  | [] => []
  | t :: ts => if p t then f t :: ts else t :: updateFirst p f ts

/-- The first row satisfying `p`, as selected by `df[pred].index[0]` /
`df[pred].values[0]` in the source. -/
def firstWith (p : Ticket → Bool) : List Ticket → Option Ticket
  | [] => none
  | t :: ts => if p t then some t else firstWith p ts

/-- Manual sale mutation (source lines 134-137): locate the first row whose
`TicketID` equals the selected id and set `Sold = True`,
`Customer = cust`, `Timestamp = str(pd.Timestamp.now())`. -/
def manualSale (tid cust now : String) (ts : List Ticket) : List Ticket :=
  updateFirst (fun t => t.TicketID == tid)
    (fun t => { t with Sold := true, Customer := cust, Timestamp := some now }) ts

/-- Sale reversal mutation (source lines 162-165): first row with the id gets
`Sold = False`, `Customer = ""`, `Timestamp = None`.  `Visited` and
`Visitor_Seats` are not touched. -/
def reverseSale (tid : String) (ts : List Ticket) : List Ticket :=
  updateFirst (fun t => t.TicketID == tid)
    (fun t => { t with Sold := false, Customer := "", Timestamp := none }) ts

/-- Visitor check-in (source lines 190-200).  The eligible-list and the
`st.number_input("Confirmed Visitors", 1, max_v, max_v)` widget restrict the
submitted count to `1 <= v <= Admit` of the first row matching the id
(line 192); a value outside that range cannot be submitted, which we model
as a guard returning the state unchanged.  On success the first matching
row gets `Visited = True`, `Visitor_Seats = v`,
`Timestamp = str(pd.Timestamp.now())`. -/
def checkIn (tid : String) (v : Int) (now : String) (ts : List Ticket) : List Ticket :=
  match firstWith (fun t => t.TicketID == tid) ts with
  | none => ts
  | some t =>
    if 1 ≤ v ∧ v ≤ t.Admit then
      updateFirst (fun t => t.TicketID == tid)
        (fun t => { t with Visited := true, Visitor_Seats := v, Timestamp := some now }) ts
    else ts

/-- Check-in reversal (source lines 208-210): first row with the id gets
`Visited = False`, `Visitor_Seats = 0`; `Timestamp`, `Sold` and `Customer`
are left untouched. -/
def reverseEntry (tid : String) (ts : List Ticket) : List Ticket :=
  updateFirst (fun t => t.TicketID == tid)
    (fun t => { t with Visited := false, Visitor_Seats := 0 }) ts

/-- Database reset (source lines 75-79): clears the sale and visit state of
every ticket. -/
def resetTicket (t : Ticket) : Ticket :=
  { t with Sold := false, Visited := false, Customer := "", Visitor_Seats := 0,
           Timestamp := none }

def resetAll (ts : List Ticket) : List Ticket := ts.map resetTicket

/-- Python `str.zfill(4)`: left-pad with zeros to length 4, keeping a leading
sign character in front of the inserted zeros. -/
def zfill4 (s : String) : String :=
  if 4 ≤ s.length then s
  else
    match s.data with
    | c :: rest =>
      if c = '+' ∨ c = '-' then
        String.mk (c :: List.replicate (4 - s.length) '0' ++ rest)
      else String.mk (List.replicate (4 - s.length) '0' ++ s.data)
    | [] => String.mk (List.replicate 4 '0')

/-- The mutation applied per sold ticket: shared by the manual-sale and
bulk-sale branches (lines 135-137 and 150-152). -/
def saleUpdate (cust now : String) (t : Ticket) : Ticket :=
  { t with Sold := true, Customer := cust, Timestamp := some now }

/-- One iteration of the bulk-upload loop (source lines 146-152): the match
set is `tickets[(tickets['TicketID'] == row['TicketID']) & (~tickets['Sold'])]`
and, when non-empty, its first row is sold to `row['CustomerName']`. -/
def bulkStep (now : String) (ts : List Ticket) (row : String × String) : List Ticket :=
  updateFirst (fun t => t.TicketID == row.1 && !t.Sold) (saleUpdate row.2 now) ts

/-- The bulk-upload branch (source lines 144-153): the uploaded `TicketID`
column is zero-padded first (line 145), then the rows are processed in
order.  The source stamps each row with its own `pd.Timestamp.now()`; the
embedding uses one `now` for the batch, which no claim distinguishes. -/
def bulkSale (now : String) (rows : List (String × String)) (ts : List Ticket) : List Ticket :=
  (rows.map (fun r => (zfill4 r.1, r.2))).foldl (bulkStep now) ts

/-- Ticket ids offered by the Manual-sale selectbox (source line 128). -/
def availIDs (ts : List Ticket) (ty cat : String) : List String :=
  (ts.filter (fun t => t.typ == ty && t.Category == cat && !t.Sold)).map (·.TicketID)

/-- Ticket ids offered by the Reverse-Sale selectbox (source line 157). -/
def soldIDs (ts : List Ticket) : List String :=
  (ts.filter (·.Sold)).map (·.TicketID)

/-- Ticket ids offered by the check-in selectbox (source lines 187-188). -/
def eligIDs (ts : List Ticket) (ty cat : String) : List String :=
  (ts.filter (fun t => t.typ == ty && t.Category == cat && t.Sold && !t.Visited)).map
    (·.TicketID)

/-- Ticket ids offered by the Reverse-Entry selectbox (source line 203). -/
def visitedIDs (ts : List Ticket) : List String :=
  (ts.filter (·.Visited)).map (·.TicketID)

/-- One user-triggered transition of the ticket table, guarded exactly as the
UI offers it: each selectbox only lists ids drawn from the corresponding
filter, bulk upload and reset are always available. -/
inductive Step : List Ticket → List Ticket → Prop where
  | manual (ts : List Ticket) (ty cat tid cust now : String)
      (h : tid ∈ availIDs ts ty cat) : Step ts (manualSale tid cust now ts)
  | bulk (ts : List Ticket) (now : String) (rows : List (String × String)) :
      Step ts (bulkSale now rows ts)
  | revSale (ts : List Ticket) (tid : String) (h : tid ∈ soldIDs ts) :
      Step ts (reverseSale tid ts)
  | entry (ts : List Ticket) (ty cat tid now : String) (v : Int)
      (h : tid ∈ eligIDs ts ty cat) : Step ts (checkIn tid v now ts)
  | revEntry (ts : List Ticket) (tid : String) (h : tid ∈ visitedIDs ts) :
      Step ts (reverseEntry tid ts)
  | reset (ts : List Ticket) : Step ts (resetAll ts)

/-- Reflexive-transitive closure of `Step`: the states reachable from an
initial table. -/
def Reachable : List Ticket → List Ticket → Prop := Relation.ReflTransGen Step

/-- The spec's per-ticket invariant `Visited ⇒ Sold`, over a whole table. -/
def allVisitedSold (ts : List Ticket) : Bool :=
  ts.all (fun t => !t.Visited || t.Sold)

/-- A valid state in the sense of the spec's §3 invariants: `Visited ⇒ Sold`,
`0 ≤ Visitor_Seats ≤ Admit`, `¬Sold ⇒ Customer = "" ∧ Timestamp = null`,
`¬Visited ⇒ Visitor_Seats = 0`. -/
def validState (ts : List Ticket) : Bool :=
  ts.all (fun t =>
    (!t.Visited || t.Sold) &&
    (0 ≤ t.Visitor_Seats && t.Visitor_Seats ≤ t.Admit) &&
    (t.Sold || (t.Customer == "" && t.Timestamp == none)) &&
    (t.Visited || t.Visitor_Seats == 0))

/-!
The Dashboard tab (source lines 89-116): group the ticket table by
`(Seq, Type, Category, Admit)`, aggregate, derive the balance columns, sort
with `custom_sort`, and append a synthetic `Total` row holding the
column-wise sums of the numeric columns with its `Seq` cell overwritten by
the string `'Total'`.

pandas `groupby` emits its group keys sorted; the summary is then re-sorted
by `custom_sort` on the `Seq` key alone (`sort_values` with the default
unstable quicksort), so the relative order of rows with equal sort keys is
unspecified by the source.  The embedding collects group keys in order of
first appearance and sorts with insertion sort, which realizes one
admissible order; no claim depends on the order of equal keys.
-/

structure GroupKey where
  Seq : Int
  typ : String
  Category : String
  Admit : Int
deriving Repr, DecidableEq

def keyOf (t : Ticket) : GroupKey := ⟨t.Seq, t.typ, t.Category, t.Admit⟩

/-- The distinct `(Seq, Type, Category, Admit)` keys of a ticket table. -/
def groupKeys : List Ticket → List GroupKey
  | [] => []
  | t :: ts =>
    let rest := groupKeys ts
    if keyOf t ∈ rest then rest else keyOf t :: rest

/-- One row of the dashboard summary (source lines 93-107): key columns plus
the aggregated and derived numeric columns, all numeric columns as `Int`. -/
structure SummaryRow where
  Seq : Int
  typ : String
  Category : String
  Admit : Int
  Total_Tickets : Int
  Tickets_Sold : Int
  Total_Seats : Int
  Seats_sold : Int
  Total_Visitors : Int
  Balance_Tickets : Int
  Balance_Seats : Int
  Balance_Visitors : Int
deriving Repr, DecidableEq

/-- The aggregation and derivation for one group (source lines 93-103):
`Total_Tickets` counts the rows, `Tickets_Sold` sums the `Sold` booleans,
`Total_Visitors` sums `Visitor_Seats`, and the remaining columns follow the
formulas on lines 99-103. -/
def groupRow (ts : List Ticket) (k : GroupKey) : SummaryRow :=
  let g := ts.filter (fun t => keyOf t == k)
  let totalTickets : Int := g.length
  let ticketsSold : Int := (g.filter (·.Sold)).length
  let totalVisitors : Int := (g.map (·.Visitor_Seats)).sum
  let totalSeats := totalTickets * k.Admit
  let seatsSold := ticketsSold * k.Admit
  { Seq := k.Seq, typ := k.typ, Category := k.Category, Admit := k.Admit,
    Total_Tickets := totalTickets, Tickets_Sold := ticketsSold,
    Total_Seats := totalSeats, Seats_sold := seatsSold,
    Total_Visitors := totalVisitors,
    Balance_Tickets := totalTickets - ticketsSold,
    Balance_Seats := totalSeats - seatsSold,
    Balance_Visitors := seatsSold - totalVisitors }

def summaryRows (ts : List Ticket) : List SummaryRow :=
  (groupKeys ts).map (groupRow ts)

/-- The sort key of `custom_sort` (source lines 57-60):
`10 if x == 0 or x == '0' else int(x)`.  `Seq` is numeric here, so only the
`x == 0` test applies. -/
def sortKeyVal (x : Int) : Int := if x = 0 then 10 else x

def rowLE (a b : SummaryRow) : Prop := sortKeyVal a.Seq ≤ sortKeyVal b.Seq

instance : DecidableRel rowLE :=
  fun a b => inferInstanceAs (Decidable (sortKeyVal a.Seq ≤ sortKeyVal b.Seq))

instance : IsTotal SummaryRow rowLE := ⟨fun _ _ => Int.le_total _ _⟩

instance : IsTrans SummaryRow rowLE := ⟨fun _ _ _ => Int.le_trans⟩

/-- `custom_sort` applied to the summary: sort by `sortKeyVal` of the `Seq`
column. -/
def customSort (rows : List SummaryRow) : List SummaryRow :=
  List.insertionSort rowLE rows

/-- The `Seq` cell of a displayed summary row: a number for a group row, the
string `'Total'` for the synthetic totals row (source line 111). -/
inductive SeqCell where
  | num (n : Int)
  | total
deriving Repr, DecidableEq

/-- A row of the final displayed summary (source line 113).  The totals row
has no `Type`/`Category` values (they are excluded by
`select_dtypes(include='number')` and become missing after `concat`), hence
the `Option` columns. -/
structure FinalRow where
  Seq : SeqCell
  typ? : Option String
  Category? : Option String
  Admit : Int
  Total_Tickets : Int
  Tickets_Sold : Int
  Total_Seats : Int
  Seats_sold : Int
  Total_Visitors : Int
  Balance_Tickets : Int
  Balance_Seats : Int
  Balance_Visitors : Int
deriving Repr, DecidableEq

def toFinalRow (r : SummaryRow) : FinalRow :=
  { Seq := SeqCell.num r.Seq, typ? := some r.typ, Category? := some r.Category,
    Admit := r.Admit, Total_Tickets := r.Total_Tickets,
    Tickets_Sold := r.Tickets_Sold, Total_Seats := r.Total_Seats,
    Seats_sold := r.Seats_sold, Total_Visitors := r.Total_Visitors,
    Balance_Tickets := r.Balance_Tickets, Balance_Seats := r.Balance_Seats,
    Balance_Visitors := r.Balance_Visitors }

/-- The synthetic totals row (source lines 110-111):
`pd.DataFrame([summary.select_dtypes(include='number').sum()])` sums every
numeric column of the sorted summary (including `Admit`; also `Seq`, whose
sum is then overwritten by the string `'Total'`). -/
def totalsFinalRow (rows : List SummaryRow) : FinalRow :=
  { Seq := SeqCell.total, typ? := none, Category? := none,
    Admit := (rows.map (·.Admit)).sum,
    Total_Tickets := (rows.map (·.Total_Tickets)).sum,
    Tickets_Sold := (rows.map (·.Tickets_Sold)).sum,
    Total_Seats := (rows.map (·.Total_Seats)).sum,
    Seats_sold := (rows.map (·.Seats_sold)).sum,
    Total_Visitors := (rows.map (·.Total_Visitors)).sum,
    Balance_Tickets := (rows.map (·.Balance_Tickets)).sum,
    Balance_Seats := (rows.map (·.Balance_Seats)).sum,
    Balance_Visitors := (rows.map (·.Balance_Visitors)).sum }

/-- `summary_final` (source line 113): the sorted group rows followed by the
totals row.  `dropna(how='all')` drops only rows that are missing in every
column; every row here has at least its numeric cells, so nothing is
dropped. -/
def summaryFinal (ts : List Ticket) : List FinalRow :=
  (customSort (summaryRows ts)).map toFinalRow ++
    [totalsFinalRow (customSort (summaryRows ts))]

/-!  The Edit-Menu tab (source lines 223-237). -/

/-- A row of the `menu` table.  `Series` is `Option String` (`none` for a
missing value: `str()` of a pandas missing value contains no dash, so the
recalculation skips it exactly as it skips a dash-free string).  The claims
concern catalog rows whose `Admit` is numeric, embedded as `Int`. -/
structure MenuRow where
  typ : String
  Category : String
  Series : Option String
  Admit : Int
  Alloc : Int
  Total_Capacity : Int
deriving Repr, DecidableEq

/-- Python `str.split('-')` on the underlying character list: fragments
between the dashes, empty fragments included. -/
def splitOnDash : List Char → List (List Char)
  | [] => [[]]
  | c :: rest =>
    let r := splitOnDash rest
    if c = '-' then [] :: r
    else
      match r with
      | [] => [[c]]
      | h :: t => (c :: h) :: t

/-- Python `int(s)` on one dash-free series fragment: optional surrounding
whitespace, optional leading `+`, then a non-empty digit string.  (A leading
`-` cannot reach `int` here because the source splits on every dash first.) -/
def pyIntFrag (cs : List Char) : Option Int :=
  let ds0 := ((cs.dropWhile (·.isWhitespace)).reverse.dropWhile (·.isWhitespace)).reverse
  let ds := match ds0 with
    | '+' :: rest => rest
    | _ => ds0
  if ds ≠ [] ∧ ds.all (·.isDigit) then
    some (ds.foldl (fun n c => 10 * n + ((c.toNat - '0'.toNat : Nat) : Int)) 0)
  else none

/-- The series parse implicit in source lines 231-232: the branch is taken
only when the string contains a dash; `split('-')` must yield exactly two
fragments (otherwise the tuple unpacking raises) and both must parse as
ints (otherwise `int` raises); any exception is swallowed by the bare
`except: pass`. -/
def seriesParse (s : String) : Option (Int × Int) :=
  if ('-' : Char) ∈ s.data then
    match splitOnDash s.data with
    | [a, b] =>
      match pyIntFrag a, pyIntFrag b with
      | some x, some y => some (x, y)
      | _, _ => none
    | _ => none
  else none

/-- The recalculation loop body for one catalog row (source lines 229-237):
on a well-formed `Series` set `Alloc = (end - start) + 1` and
`Total_Capacity = Alloc * Admit`; otherwise leave the row unchanged.
(`Admit` being an `Int` here, the only exceptions possible are those raised
while parsing `Series`, so the two assignments succeed or fail together.) -/
def recalcRow (r : MenuRow) : MenuRow :=
  match r.Series with
  | none => r
  | some s =>
    match seriesParse s with
    | none => r
    | some (st, en) =>
      let count := (en - st) + 1
      { r with Alloc := count, Total_Capacity := count * r.Admit }

def recalcMenu (m : List MenuRow) : List MenuRow := m.map recalcRow

/-! Helper lemmas about the first-match update pattern. -/

theorem updateFirst_nomatch (p : Ticket → Bool) (f : Ticket → Ticket) :
    ∀ l : List Ticket, (∀ u ∈ l, p u = false) → updateFirst p f l = l := by
  intro l
  induction l with
  | nil => intro _; rfl
  | cons t ts ih =>
    intro h
    have ht := h t (List.mem_cons_self t ts)
    simp [updateFirst, ht, ih (fun u hu => h u (List.mem_cons_of_mem t hu))]

theorem updateFirst_append (p : Ticket → Bool) (f : Ticket → Ticket)
    (pre : List Ticket) (t : Ticket) (post : List Ticket)
    (hpre : ∀ u ∈ pre, p u = false) (hp : p t = true) :
    updateFirst p f (pre ++ t :: post) = pre ++ f t :: post := by
  induction pre with
  | nil => simp [updateFirst, hp]
  | cons a l ih =>
    have ha := hpre a (List.mem_cons_self a l)
    simp [updateFirst, ha, ih (fun u hu => hpre u (List.mem_cons_of_mem a hu))]

theorem firstWith_append (p : Ticket → Bool)
    (pre : List Ticket) (t : Ticket) (post : List Ticket)
    (hpre : ∀ u ∈ pre, p u = false) (hp : p t = true) :
    firstWith p (pre ++ t :: post) = some t := by
  induction pre with
  | nil => simp [firstWith, hp]
  | cons a l ih =>
    have ha := hpre a (List.mem_cons_self a l)
    simp [firstWith, ha, ih (fun u hu => hpre u (List.mem_cons_of_mem a hu))]

theorem firstWith_eq_none (p : Ticket → Bool) :
    ∀ l : List Ticket, firstWith p l = none → ∀ u ∈ l, p u = false := by
  intro l
  induction l with
  | nil => intro _ u hu; cases hu
  | cons t ts ih =>
    intro h u hu
    by_cases hp : p t = true
    · simp [firstWith, hp] at h
    · rw [List.mem_cons] at hu
      rcases hu with rfl | hu
      · exact Bool.eq_false_iff.mpr hp
      · have h' : firstWith p ts = none := by
          simpa [firstWith, Bool.eq_false_iff.mpr hp] using h
        exact ih h' u hu

theorem firstWith_eq_some (p : Ticket → Bool) :
    ∀ (l : List Ticket) (t : Ticket), firstWith p l = some t →
      ∃ pre post, l = pre ++ t :: post ∧ (∀ u ∈ pre, p u = false) ∧ p t = true := by
  intro l
  induction l with
  | nil => intro t h; cases h
  | cons a as ih =>
    intro t h
    by_cases hp : p a = true
    · have : a = t := by simpa [firstWith, hp] using h
      subst this
      refine ⟨[], as, rfl, ?_, hp⟩
      intro u hu
      cases hu
    · have h' : firstWith p as = some t := by
        simpa [firstWith, Bool.eq_false_iff.mpr hp] using h
      obtain ⟨pre, post, hl, hpre, hpt⟩ := ih t h'
      exact ⟨a :: pre, post, by simp [hl], by
        intro u hu
        rw [List.mem_cons] at hu
        rcases hu with rfl | hu
        · exact Bool.eq_false_iff.mpr hp
        · exact hpre u hu, hpt⟩

theorem updateFirst_forall (P : Ticket → Prop) (p : Ticket → Bool) (f : Ticket → Ticket)
    (hf : ∀ u, P u → P (f u)) :
    ∀ l : List Ticket, (∀ u ∈ l, P u) → ∀ u ∈ updateFirst p f l, P u := by
  intro l
  induction l with
  | nil => intro _ u hu; cases hu
  | cons t ts ih =>
    intro h u hu
    by_cases hp : p t = true
    · simp only [updateFirst, hp, if_true] at hu
      rw [List.mem_cons] at hu
      rcases hu with rfl | hu
      · exact hf t (h t (List.mem_cons_self t ts))
      · exact h u (List.mem_cons_of_mem t hu)
    · have hp' : p t = false := Bool.eq_false_iff.mpr hp
      simp only [updateFirst, hp', Bool.false_eq_true, if_false] at hu
      rw [List.mem_cons] at hu
      rcases hu with rfl | hu
      · exact h u (List.mem_cons_self u ts)
      · exact ih (fun v hv => h v (List.mem_cons_of_mem t hv)) u hu

theorem all_updateFirst (q p : Ticket → Bool) (f : Ticket → Ticket)
    (hf : ∀ u, q u = true → q (f u) = true)
    (l : List Ticket) (h : l.all q = true) : (updateFirst p f l).all q = true := by
  rw [List.all_eq_true] at h ⊢
  exact updateFirst_forall (fun u => q u = true) p f hf l h

theorem allVisitedSold_manualSale (ts : List Ticket) (h : allVisitedSold ts = true)
    (tid cust now : String) : allVisitedSold (manualSale tid cust now ts) = true := by
  exact all_updateFirst _ _ _ (fun u _ => by simp) ts h

theorem allVisitedSold_foldlBulk (now : String) (rows : List (String × String)) :
    ∀ ts, allVisitedSold ts = true →
      allVisitedSold (rows.foldl (bulkStep now) ts) = true := by
  induction rows with
  | nil => intro ts h; exact h
  | cons r rest ih =>
    intro ts h
    exact ih _ (all_updateFirst _ _ _ (fun u _ => by simp [saleUpdate]) ts h)

theorem allVisitedSold_bulkSale (ts : List Ticket) (h : allVisitedSold ts = true)
    (now : String) (rows : List (String × String)) :
    allVisitedSold (bulkSale now rows ts) = true :=
  allVisitedSold_foldlBulk now _ ts h

theorem allVisitedSold_reverseEntry (ts : List Ticket) (h : allVisitedSold ts = true)
    (tid : String) : allVisitedSold (reverseEntry tid ts) = true := by
  exact all_updateFirst _ _ _ (fun u _ => by simp) ts h

theorem allVisitedSold_resetAll (ts : List Ticket) :
    allVisitedSold (resetAll ts) = true := by
  rw [allVisitedSold, List.all_eq_true]
  intro u hu
  obtain ⟨t, _, rfl⟩ := List.mem_map.mp hu
  simp [resetTicket]

theorem allVisitedSold_checkIn (ts : List Ticket) (h : allVisitedSold ts = true)
    (tid now : String) (v : Int) (t : Ticket)
    (hfw : firstWith (fun u => u.TicketID == tid) ts = some t)
    (hsold : t.Sold = true) : allVisitedSold (checkIn tid v now ts) = true := by
  simp only [checkIn, hfw]
  by_cases hv : 1 ≤ v ∧ v ≤ t.Admit
  · rw [if_pos hv]
    obtain ⟨pre, post, rfl, hpre, hp⟩ := firstWith_eq_some _ ts t hfw
    rw [updateFirst_append _ _ pre t post hpre hp]
    simp only [allVisitedSold, List.all_append, List.all_cons, Bool.and_eq_true] at h ⊢
    exact ⟨h.1, by simp [hsold], h.2.2⟩
  · rw [if_neg hv]; exact h

theorem allVisitedSold_reverseSale (ts : List Ticket) (h : allVisitedSold ts = true)
    (tid : String) (t : Ticket)
    (hfw : firstWith (fun u => u.TicketID == tid) ts = some t)
    (hvis : t.Visited = false) : allVisitedSold (reverseSale tid ts) = true := by
  obtain ⟨pre, post, rfl, hpre, hp⟩ := firstWith_eq_some _ ts t hfw
  rw [reverseSale, updateFirst_append _ _ pre t post hpre hp]
  simp only [allVisitedSold, List.all_append, List.all_cons, Bool.and_eq_true] at h ⊢
  exact ⟨h.1, by simp [hvis], h.2.2⟩

/-- C1 (amended): from any table satisfying `Visited ⇒ Sold`, every
operation of the system preserves the invariant, with two provisos matching
the UI's selection filters: check-in requires the first row matching the
chosen id to be `Sold`, and sale reversal preserves the invariant only when
that row is not `Visited`.  Sale reversal of a `Visited` ticket breaks the
invariant (see the counterexample). -/
theorem C1_thm (ts : List Ticket) (h : allVisitedSold ts = true) :
    (∀ tid cust now, allVisitedSold (manualSale tid cust now ts) = true) ∧
    (∀ now rows, allVisitedSold (bulkSale now rows ts) = true) ∧
    (∀ tid, allVisitedSold (reverseEntry tid ts) = true) ∧
    allVisitedSold (resetAll ts) = true ∧
    (∀ tid now v t, firstWith (fun u => u.TicketID == tid) ts = some t →
      t.Sold = true → allVisitedSold (checkIn tid v now ts) = true) ∧
    (∀ tid t, firstWith (fun u => u.TicketID == tid) ts = some t →
      t.Visited = false → allVisitedSold (reverseSale tid ts) = true) :=
  ⟨fun tid cust now => allVisitedSold_manualSale ts h tid cust now,
   fun now rows => allVisitedSold_bulkSale ts h now rows,
   fun tid => allVisitedSold_reverseEntry ts h tid,
   allVisitedSold_resetAll ts,
   fun tid now v t hfw hsold => allVisitedSold_checkIn ts h tid now v t hfw hsold,
   fun tid t hfw hvis => allVisitedSold_reverseSale ts h tid t hfw hvis⟩

/-- The single-ticket table used by the C1 counterexample: one Public ticket
of category `A` with `Admit = 2`, initially unsold. -/
def exC1 : List Ticket :=
  [⟨"0001", "Public", "A", 2, 1, false, "", false, 0, none⟩]

/-- The state reached by selling ticket `0001`, checking a visitor in on it,
and then reversing the sale. -/
def exC1bad : List Ticket :=
  reverseSale "0001" (checkIn "0001" 1 "T2" (manualSale "0001" "Alice" "T1" exC1))

/-- C1 as stated is false on the code: from a valid initial state, the
operation sequence manual sale, check-in, sale reversal (each offered by
the UI at that point) reaches a state whose ticket has `Visited = true` and
`Sold = false` — sale reversal (source lines 162-165) does not touch
`Visited`, and the Reverse-Sale list (line 157) does not exclude visited
tickets. -/
theorem C1_counterexample :
    validState exC1 = true ∧ Reachable exC1 exC1bad ∧
      allVisitedSold exC1bad = false := by
  refine ⟨by decide, ?_, by decide⟩
  have h1 : Step exC1 (manualSale "0001" "Alice" "T1" exC1) :=
    Step.manual exC1 "Public" "A" "0001" "Alice" "T1" (by decide)
  have h2 : Step (manualSale "0001" "Alice" "T1" exC1)
      (checkIn "0001" 1 "T2" (manualSale "0001" "Alice" "T1" exC1)) :=
    Step.entry _ "Public" "A" "0001" "T2" 1 (by decide)
  have h3 : Step (checkIn "0001" 1 "T2" (manualSale "0001" "Alice" "T1" exC1)) exC1bad :=
    Step.revSale _ "0001" (by decide)
  exact Relation.ReflTransGen.head h1
    (Relation.ReflTransGen.head h2 (Relation.ReflTransGen.single h3))

/-- Witness for the amended C1 theorem on a concrete table. -/
theorem C1_witness :
    allVisitedSold exC1 = true ∧
    allVisitedSold (reverseSale "0001" exC1) = true ∧
    allVisitedSold (manualSale "0001" "Bob" "T0" exC1) = true :=
  ⟨by decide,
   (C1_thm exC1 (by decide)).2.2.2.2.2 "0001"
     ⟨"0001", "Public", "A", 2, 1, false, "", false, 0, none⟩ (by decide) rfl,
   (C1_thm exC1 (by decide)).1 "0001" "Bob" "T0"⟩

/-- C6: on a table whose first row matching `tid` is the Available,
check-in-untouched ticket `t`, a manual sale (any customer, any timestamp)
followed by a sale reversal restores exactly
`Sold = false, Customer = "", Timestamp = null` on that row and leaves every
other field and every other row unchanged; if the ticket also satisfied the
spec's invariant for unsold tickets (`Customer = ""`, `Timestamp = null`)
the whole table round-trips exactly. -/
theorem C6_thm (pre post : List Ticket) (t : Ticket) (tid cust now : String)
    (hpre : ∀ u ∈ pre, (u.TicketID == tid) = false) (hid : t.TicketID = tid)
    (hsold : t.Sold = false) (hvis : t.Visited = false)
    (hseats : t.Visitor_Seats = 0) :
    reverseSale tid (manualSale tid cust now (pre ++ t :: post)) =
      pre ++ { t with Sold := false, Customer := "", Timestamp := none } :: post ∧
    (t.Customer = "" → t.Timestamp = none →
      reverseSale tid (manualSale tid cust now (pre ++ t :: post)) =
        pre ++ t :: post) := by
  have hp : (t.TicketID == tid) = true := by simp [hid]
  have h1 : manualSale tid cust now (pre ++ t :: post) =
      pre ++ saleUpdate cust now t :: post :=
    updateFirst_append _ _ pre t post hpre hp
  have hp2 : ((saleUpdate cust now t).TicketID == tid) = true := by
    simp [saleUpdate, hid]
  have h2 : reverseSale tid (pre ++ saleUpdate cust now t :: post) =
      pre ++ { t with Sold := false, Customer := "", Timestamp := none } :: post := by
    rw [reverseSale, updateFirst_append _ _ pre (saleUpdate cust now t) post hpre hp2]
    simp [saleUpdate]
  constructor
  · rw [h1]; exact h2
  · intro hcust hts
    rw [h1, h2]
    have : ({ t with Sold := false, Customer := "", Timestamp := none } : Ticket) = t := by
      cases t
      simp only [Ticket.mk.injEq] at *
      simp_all
    rw [this]

def exC6 : Ticket := ⟨"0007", "Public", "A", 4, 1, false, "", false, 0, none⟩

/-- Witness for C6: the spec's §8 scenario — ticket `0007`, Available, sold
to Alice and then reversed, restoring the original table. -/
theorem C6_witness :
    reverseSale "0007" (manualSale "0007" "Alice" "T1" [exC6]) = [exC6] :=
  (C6_thm [] [] exC6 "0007" "Alice" "T1" (by intro u hu; cases hu) rfl rfl rfl
    rfl).2 rfl rfl

/-- C7: for a table whose first row matching `tid` is `t`, a check-in with
count `v` satisfying `1 ≤ v ≤ t.Admit` (both bounds included) sets
`Visited = true`, `Visitor_Seats = v`, `Timestamp = now` on that row and
leaves every other row unchanged, while a `v` outside the range is rejected
and changes nothing.  (The `Sold`/`not Visited` hypotheses record that the
check-in form only offers eligible tickets, source lines 187-188.) -/
theorem C7_thm (pre post : List Ticket) (t : Ticket) (tid now : String) (v : Int)
    (hpre : ∀ u ∈ pre, (u.TicketID == tid) = false) (hid : t.TicketID = tid)
    (_hsold : t.Sold = true) (_hvis : t.Visited = false) :
    (1 ≤ v → v ≤ t.Admit →
      checkIn tid v now (pre ++ t :: post) =
        pre ++ { t with Visited := true, Visitor_Seats := v,
                        Timestamp := some now } :: post) ∧
    (¬(1 ≤ v ∧ v ≤ t.Admit) → checkIn tid v now (pre ++ t :: post) = pre ++ t :: post) := by
  have hp : (t.TicketID == tid) = true := by simp [hid]
  have hfw : firstWith (fun u => u.TicketID == tid) (pre ++ t :: post) = some t :=
    firstWith_append _ pre t post hpre hp
  constructor
  · intro h1 h2
    simp only [checkIn, hfw]
    rw [if_pos ⟨h1, h2⟩, updateFirst_append _ _ pre t post hpre hp]
  · intro hv
    simp only [checkIn, hfw]
    rw [if_neg hv]

def exC7 : Ticket := ⟨"0002", "Guest", "B", 2, 1, true, "Bob", false, 0, some "T1"⟩

/-- Witness for C7 at both boundary counts and at an out-of-range count:
`Admit = 2`, so `v = 1` and `v = 2` check in and `v = 3` is a no-op. -/
theorem C7_witness :
    checkIn "0002" 1 "T2" [exC7] =
      [{ exC7 with Visited := true, Visitor_Seats := 1, Timestamp := some "T2" }] ∧
    checkIn "0002" 2 "T2" [exC7] =
      [{ exC7 with Visited := true, Visitor_Seats := 2, Timestamp := some "T2" }] ∧
    checkIn "0002" 3 "T2" [exC7] = [exC7] :=
  ⟨(C7_thm [] [] exC7 "0002" "T2" 1 (by intro u hu; cases hu) rfl rfl rfl).1
      (by decide) (by decide),
   (C7_thm [] [] exC7 "0002" "T2" 2 (by intro u hu; cases hu) rfl rfl rfl).1
      (by decide) (by decide),
   (C7_thm [] [] exC7 "0002" "T2" 3 (by intro u hu; cases hu) rfl rfl rfl).2
      (by decide)⟩

/-- C8: check-in reversal on a table whose first row matching `tid` is the
visited ticket `t` sets `Visited = false` and `Visitor_Seats = 0` on that
row, leaves every other row unchanged, and leaves the row's `Timestamp`,
`Sold`, `Customer` and every remaining field equal to its old value. -/
theorem C8_thm (pre post : List Ticket) (t : Ticket) (tid : String)
    (hpre : ∀ u ∈ pre, (u.TicketID == tid) = false) (hid : t.TicketID = tid)
    (_hvis : t.Visited = true) :
    reverseEntry tid (pre ++ t :: post) =
      pre ++ { t with Visited := false, Visitor_Seats := 0 } :: post ∧
    ({ t with Visited := false, Visitor_Seats := 0 } : Ticket).Timestamp =
      t.Timestamp ∧
    ({ t with Visited := false, Visitor_Seats := 0 } : Ticket).Sold = t.Sold ∧
    ({ t with Visited := false, Visitor_Seats := 0 } : Ticket).Customer =
      t.Customer ∧
    ({ t with Visited := false, Visitor_Seats := 0 } : Ticket).TicketID =
      t.TicketID ∧
    ({ t with Visited := false, Visitor_Seats := 0 } : Ticket).typ = t.typ ∧
    ({ t with Visited := false, Visitor_Seats := 0 } : Ticket).Category =
      t.Category ∧
    ({ t with Visited := false, Visitor_Seats := 0 } : Ticket).Admit = t.Admit ∧
    ({ t with Visited := false, Visitor_Seats := 0 } : Ticket).Seq = t.Seq := by
  have hp : (t.TicketID == tid) = true := by simp [hid]
  exact ⟨updateFirst_append _ _ pre t post hpre hp, rfl, rfl, rfl, rfl, rfl, rfl,
    rfl, rfl⟩

def exC8 : Ticket := ⟨"0003", "Public", "C", 3, 2, true, "Eve", true, 2, some "T5"⟩

/-- Witness for C8 on a concrete visited ticket. -/
theorem C8_witness :
    reverseEntry "0003" [exC8] =
      [{ exC8 with Visited := false, Visitor_Seats := 0 }] :=
  (C8_thm [] [] exC8 "0003" (by intro u hu; cases hu) rfl rfl).1

/-- C10: each single-ticket mutation rewrites only the first row matching
the selected `TicketID` and reproduces every other row of the table
exactly (check-in may also be rejected by the visitor-count guard, in
which case nothing at all changes). -/
theorem C10_thm (pre post : List Ticket) (t : Ticket) (tid : String)
    (hpre : ∀ u ∈ pre, (u.TicketID == tid) = false) (hid : t.TicketID = tid) :
    (∀ cust now, manualSale tid cust now (pre ++ t :: post) =
      pre ++ saleUpdate cust now t :: post) ∧
    (reverseSale tid (pre ++ t :: post) =
      pre ++ { t with Sold := false, Customer := "", Timestamp := none } :: post) ∧
    (∀ v now, checkIn tid v now (pre ++ t :: post) = pre ++ t :: post ∨
      checkIn tid v now (pre ++ t :: post) =
        pre ++ { t with Visited := true, Visitor_Seats := v,
                        Timestamp := some now } :: post) ∧
    (reverseEntry tid (pre ++ t :: post) =
      pre ++ { t with Visited := false, Visitor_Seats := 0 } :: post) := by
  have hp : (t.TicketID == tid) = true := by simp [hid]
  have hfw : firstWith (fun u => u.TicketID == tid) (pre ++ t :: post) = some t :=
    firstWith_append _ pre t post hpre hp
  refine ⟨fun cust now => updateFirst_append _ _ pre t post hpre hp,
    updateFirst_append _ _ pre t post hpre hp, fun v now => ?_,
    updateFirst_append _ _ pre t post hpre hp⟩
  simp only [checkIn, hfw]
  by_cases hv : 1 ≤ v ∧ v ≤ t.Admit
  · right
    rw [if_pos hv, updateFirst_append _ _ pre t post hpre hp]
  · left
    rw [if_neg hv]

def exC10a : Ticket := ⟨"0004", "Public", "A", 2, 1, true, "Dan", false, 0, some "T3"⟩

def exC10b : Ticket := ⟨"0005", "Guest", "B", 1, 2, false, "", false, 0, none⟩

/-- Witness for C10: reversing the sale of `0004` in a two-row table leaves
the other row `0005` untouched. -/
theorem C10_witness :
    reverseSale "0004" [exC10a, exC10b] =
      [{ exC10a with Sold := false, Customer := "", Timestamp := none }, exC10b] :=
  (C10_thm [] [exC10b] exC10a "0004" (by intro u hu; cases hu) rfl).2.1

/-! Bulk-sale lemmas: once every ticket carrying a given id is sold, a bulk
row for that id is a no-op, and `bulkStep` both establishes and preserves
that property. -/

theorem bulkStep_noAvail (now : String) (z name : String) (ts : List Ticket)
    (h : ∀ u ∈ ts, u.TicketID = z → u.Sold = true) :
    bulkStep now ts (z, name) = ts := by
  apply updateFirst_nomatch
  intro u hu
  by_cases hz : u.TicketID = z
  · simp [hz, h u hu hz]
  · simp [beq_eq_false_iff_ne.mpr hz]

theorem bulkStep_preserves_allSold (now : String) (z : String)
    (row : String × String) (ts : List Ticket)
    (h : ∀ u ∈ ts, u.TicketID = z → u.Sold = true) :
    ∀ u ∈ bulkStep now ts row, u.TicketID = z → u.Sold = true := by
  apply updateFirst_forall (fun u => u.TicketID = z → u.Sold = true)
  · intro u _ _
    simp [saleUpdate]
  · exact h

theorem bulkStep_sells (now : String) (ts : List Ticket) (z name : String)
    (hnodup : (ts.map (·.TicketID)).Nodup) :
    ∀ u ∈ bulkStep now ts (z, name), u.TicketID = z → u.Sold = true := by
  rcases hfw : firstWith (fun t => t.TicketID == z && !t.Sold) ts with _ | t
  · rw [bulkStep, updateFirst_nomatch _ _ ts (firstWith_eq_none _ ts hfw)]
    intro u hu hz
    have := firstWith_eq_none _ ts hfw u hu
    simpa [hz] using this
  · obtain ⟨pre, post, rfl, hpre, hp⟩ := firstWith_eq_some _ ts t hfw
    rw [bulkStep, updateFirst_append _ _ pre t post hpre hp]
    have htz : t.TicketID = z := by
      have := hp
      simp only [Bool.and_eq_true, beq_iff_eq] at this
      exact this.1
    have hnotpost : ∀ u ∈ post, u.TicketID ≠ z := by
      intro u hu hz
      rw [List.map_append, List.map_cons] at hnodup
      have h1 := (List.nodup_append.mp hnodup).2.1
      rw [List.nodup_cons] at h1
      exact h1.1 (htz ▸ hz ▸ List.mem_map_of_mem (·.TicketID) hu)
    intro u hu hz
    rw [List.mem_append, List.mem_cons] at hu
    rcases hu with hu | rfl | hu
    · have := hpre u hu
      simpa [hz] using this
    · simp [saleUpdate]
    · exact absurd hz (hnotpost u hu)

theorem bulkFold_preserves_allSold (now : String) (z : String)
    (rows : List (String × String)) :
    ∀ ts : List Ticket, (∀ u ∈ ts, u.TicketID = z → u.Sold = true) →
      ∀ u ∈ rows.foldl (bulkStep now) ts, u.TicketID = z → u.Sold = true := by
  induction rows with
  | nil => intro ts h; exact h
  | cons r rest ih =>
    intro ts h
    exact ih _ (bulkStep_preserves_allSold now z r ts h)

/-- C5: bulk-sale semantics.  With distinct `TicketID`s in the table (the
spec's §3 uniqueness): a batch row whose zero-padded id has no Available
match changes nothing; a row whose first match is the Available ticket `t`
sells exactly `t` (`Sold = true`, `Customer` = the row's name,
`Timestamp = now`) and reproduces every other row; and a later duplicate of
an id already processed in the batch is a no-op, wherever it sits. -/
theorem C5_thm (ts : List Ticket) (now : String)
    (hnodup : (ts.map (·.TicketID)).Nodup) :
    (∀ id name, (∀ u ∈ ts, u.TicketID = zfill4 id → u.Sold = true) →
      bulkStep now ts (zfill4 id, name) = ts) ∧
    (∀ id name pre t post, ts = pre ++ t :: post →
      (∀ u ∈ pre, ¬(u.TicketID = zfill4 id ∧ u.Sold = false)) →
      t.TicketID = zfill4 id → t.Sold = false →
      bulkStep now ts (zfill4 id, name) = pre ++ saleUpdate name now t :: post) ∧
    (∀ id n1 n2 mid rest,
      bulkSale now ((id, n1) :: mid ++ (id, n2) :: rest) ts =
        bulkSale now ((id, n1) :: mid ++ rest) ts) := by
  refine ⟨?_, ?_, ?_⟩
  · intro id name h
    exact bulkStep_noAvail now (zfill4 id) name ts h
  · intro id name pre t post hts hpre htid htsold
    subst hts
    apply updateFirst_append
    · intro u hu
      have := hpre u hu
      by_cases hz : u.TicketID = zfill4 id
      · have : u.Sold = true := by
          rcases Bool.eq_false_or_eq_true u.Sold with h' | h'
          · exact h'
          · exact absurd ⟨hz, h'⟩ this
        simp [hz, this]
      · simp [beq_eq_false_iff_ne.mpr hz]
    · simp [htid, htsold]
  · intro id n1 n2 mid rest
    simp only [bulkSale, List.map_cons, List.map_append, List.foldl_cons,
      List.foldl_append]
    have h1 := bulkStep_sells now ts (zfill4 id) n1 hnodup
    have h2 := bulkFold_preserves_allSold now (zfill4 id)
      (mid.map (fun r => (zfill4 r.1, r.2))) _ h1
    rw [bulkStep_noAvail now (zfill4 id) n2 _ h2]

def exC5 : List Ticket :=
  [⟨"0001", "Public", "A", 1, 1, false, "", false, 0, none⟩,
   ⟨"0002", "Public", "A", 1, 1, false, "", false, 0, none⟩]

/-- Witness for C5: the spec's §8 scenario — a batch selling id `1` (padded
to `0001`) to Bob and then to Carol equals the batch with the Carol row
dropped: the duplicate is a no-op, and only ticket `0001` is touched. -/
theorem C5_witness :
    bulkSale "T" [("1", "Bob"), ("1", "Carol")] exC5 =
      bulkSale "T" [("1", "Bob")] exC5 ∧
    bulkSale "T" [("1", "Bob")] exC5 =
      [⟨"0001", "Public", "A", 1, 1, true, "Bob", false, 0, some "T"⟩,
       ⟨"0002", "Public", "A", 1, 1, false, "", false, 0, none⟩] ∧
    bulkStep "T" exC5 (zfill4 "1", "Bob") =
      [] ++ saleUpdate "Bob" "T"
        ⟨"0001", "Public", "A", 1, 1, false, "", false, 0, none⟩ ::
        [⟨"0002", "Public", "A", 1, 1, false, "", false, 0, none⟩] :=
  ⟨(C5_thm exC5 "T" (by decide)).2.2 "1" "Bob" "Carol" [] [], by decide,
   (C5_thm exC5 "T" (by decide)).2.1 "1" "Bob" []
     ⟨"0001", "Public", "A", 1, 1, false, "", false, 0, none⟩
     [⟨"0002", "Public", "A", 1, 1, false, "", false, 0, none⟩] rfl
     (by intro u hu; cases hu) (by decide) rfl⟩

/-! Reconciler lemmas. -/

theorem keyOf_mem_groupKeys (t : Ticket) :
    ∀ ts : List Ticket, t ∈ ts → keyOf t ∈ groupKeys ts := by
  intro ts
  induction ts with
  | nil => intro h; cases h
  | cons a l ih =>
    intro h
    rw [List.mem_cons] at h
    simp only [groupKeys]
    by_cases hk : keyOf a ∈ groupKeys l
    · rw [if_pos hk]
      rcases h with rfl | h
      · exact hk
      · exact ih h
    · rw [if_neg hk]
      rcases h with rfl | h
      · exact List.mem_cons_self _ _
      · exact List.mem_cons_of_mem _ (ih h)

/-- C2: every row of the dashboard summary carries, for its own group
(the tickets whose key equals the row's `(Seq, Type, Category, Admit)`),
the aggregates and derived columns of source lines 93-103: row count, sold
count, visitor sum, and the four balance formulas; and every ticket belongs
to the group of some summary row. -/
theorem C2_thm (ts : List Ticket) (r : SummaryRow) (hr : r ∈ summaryRows ts) :
    r.Total_Tickets =
      ((ts.filter
        (fun t => keyOf t == ⟨r.Seq, r.typ, r.Category, r.Admit⟩)).length : Int) ∧
    r.Tickets_Sold =
      (((ts.filter
        (fun t => keyOf t == ⟨r.Seq, r.typ, r.Category, r.Admit⟩)).filter
          (·.Sold)).length : Int) ∧
    r.Total_Visitors =
      ((ts.filter
        (fun t => keyOf t == ⟨r.Seq, r.typ, r.Category, r.Admit⟩)).map
          (·.Visitor_Seats)).sum ∧
    r.Total_Seats = r.Total_Tickets * r.Admit ∧
    r.Seats_sold = r.Tickets_Sold * r.Admit ∧
    r.Balance_Tickets = r.Total_Tickets - r.Tickets_Sold ∧
    r.Balance_Seats = r.Total_Seats - r.Seats_sold ∧
    r.Balance_Visitors = r.Seats_sold - r.Total_Visitors ∧
    (∀ t ∈ ts, ∃ r' ∈ summaryRows ts,
      keyOf t = ⟨r'.Seq, r'.typ, r'.Category, r'.Admit⟩) := by
  obtain ⟨k, hk, rfl⟩ := List.mem_map.mp hr
  have hkey : (⟨(groupRow ts k).Seq, (groupRow ts k).typ, (groupRow ts k).Category,
      (groupRow ts k).Admit⟩ : GroupKey) = k := by
    cases k; rfl
  rw [hkey]
  refine ⟨rfl, rfl, rfl, rfl, rfl, rfl, rfl, rfl, ?_⟩
  intro t ht
  exact ⟨groupRow ts (keyOf t),
    List.mem_map_of_mem _ (keyOf_mem_groupKeys t ts ht), rfl⟩

def exC2 : List Ticket :=
  [⟨"0001", "Public", "A", 2, 1, true, "Ann", true, 2, some "T1"⟩,
   ⟨"0002", "Public", "A", 2, 1, false, "", false, 0, none⟩,
   ⟨"0003", "Guest", "B", 1, 2, true, "Bo", false, 0, some "T2"⟩]

def exC2row : SummaryRow := groupRow exC2 ⟨1, "Public", "A", 2⟩

/-- Witness for C2 on a three-ticket table with two groups. -/
theorem C2_witness :
    exC2row ∈ summaryRows exC2 ∧
    exC2row.Total_Tickets =
      ((exC2.filter (fun t =>
        keyOf t == ⟨exC2row.Seq, exC2row.typ, exC2row.Category,
          exC2row.Admit⟩)).length : Int) ∧
    exC2row.Total_Tickets = 2 :=
  ⟨by decide, (C2_thm exC2 exC2row (by decide)).1, by decide⟩

theorem summaryRows_balance (ts : List Ticket) :
    ∀ r ∈ summaryRows ts, r.Balance_Tickets = r.Total_Tickets - r.Tickets_Sold := by
  intro r hr
  obtain ⟨k, _, rfl⟩ := List.mem_map.mp hr
  rfl

theorem sum_balance_eq (l : List SummaryRow)
    (h : ∀ r ∈ l, r.Balance_Tickets = r.Total_Tickets - r.Tickets_Sold) :
    (l.map (·.Balance_Tickets)).sum =
      (l.map (·.Total_Tickets)).sum - (l.map (·.Tickets_Sold)).sum := by
  induction l with
  | nil => simp
  | cons a l ih =>
    simp only [List.map_cons, List.sum_cons]
    rw [h a (List.mem_cons_self a l), ih (fun r hr => h r (List.mem_cons_of_mem a hr))]
    ring

/-- C3: the last row of `summary_final` is the synthetic Total row, each of
its numeric columns equal to the column-wise sum of that column over the
group rows (all rows before it); in particular the summed balances satisfy
`sum(Balance_Tickets) = sum(Total_Tickets) - sum(Tickets_Sold)`. -/
theorem C3_thm (ts : List Ticket) :
    (summaryFinal ts).getLast? = some
      { Seq := SeqCell.total, typ? := none, Category? := none,
        Admit := (((summaryFinal ts).dropLast).map (·.Admit)).sum,
        Total_Tickets := (((summaryFinal ts).dropLast).map (·.Total_Tickets)).sum,
        Tickets_Sold := (((summaryFinal ts).dropLast).map (·.Tickets_Sold)).sum,
        Total_Seats := (((summaryFinal ts).dropLast).map (·.Total_Seats)).sum,
        Seats_sold := (((summaryFinal ts).dropLast).map (·.Seats_sold)).sum,
        Total_Visitors := (((summaryFinal ts).dropLast).map (·.Total_Visitors)).sum,
        Balance_Tickets :=
          (((summaryFinal ts).dropLast).map (·.Balance_Tickets)).sum,
        Balance_Seats := (((summaryFinal ts).dropLast).map (·.Balance_Seats)).sum,
        Balance_Visitors :=
          (((summaryFinal ts).dropLast).map (·.Balance_Visitors)).sum } ∧
    (((summaryFinal ts).dropLast).map (·.Balance_Tickets)).sum =
      (((summaryFinal ts).dropLast).map (·.Total_Tickets)).sum -
        (((summaryFinal ts).dropLast).map (·.Tickets_Sold)).sum := by
  have hdrop : (summaryFinal ts).dropLast =
      (customSort (summaryRows ts)).map toFinalRow := by
    rw [summaryFinal, List.dropLast_concat]
  have hlast : (summaryFinal ts).getLast? =
      some (totalsFinalRow (customSort (summaryRows ts))) := by
    rw [summaryFinal, List.getLast?_concat]
  constructor
  · rw [hlast, hdrop]
    simp only [List.map_map]
    rfl
  · rw [hdrop]
    have hb : ∀ r ∈ customSort (summaryRows ts),
        r.Balance_Tickets = r.Total_Tickets - r.Tickets_Sold := by
      intro r hr
      exact summaryRows_balance ts r
        ((List.perm_insertionSort (fun a b => rowLE a b) (summaryRows ts)).mem_iff.mp hr)
    simp only [List.map_map]
    exact sum_balance_eq _ hb

/-! The sort-order claim for the displayed summary. -/

/-- The claim's requirement on an ordered pair of displayed rows (`a` before
`b`): a `Seq = 0` group must not precede a `Seq > 0` group, two positive
groups appear in ascending `Seq`, and no row follows the Total row. -/
def claimedPairOK (a b : FinalRow) : Bool :=
  match a.Seq, b.Seq with
  | SeqCell.num x, SeqCell.num y =>
    !(x == 0 && decide (0 < y)) && (!(decide (0 < x) && decide (0 < y)) || decide (x ≤ y))
  | SeqCell.total, _ => false
  | _, _ => true

def pairwiseB (r : FinalRow → FinalRow → Bool) : List FinalRow → Bool
  | [] => true
  | a :: l => l.all (r a) && pairwiseB r l

def lastIsTotal (fin : List FinalRow) : Bool :=
  match fin.getLast? with
  | some r => r.Seq == SeqCell.total
  | none => true

/-- C4 as stated, as a decidable check over the displayed summary. -/
def claimC4 (fin : List FinalRow) : Bool :=
  pairwiseB claimedPairOK fin && lastIsTotal fin

def exC4 : List Ticket :=
  [⟨"0001", "Public", "A", 1, 11, false, "", false, 0, none⟩,
   ⟨"0002", "Public", "B", 1, 0, false, "", false, 0, none⟩]

/-- C4 as stated is false on the code: `custom_sort` maps `Seq = 0` to the
fixed key `10`, not past every positive key, so with groups of `Seq = 11`
and `Seq = 0` the displayed order is the `Seq = 0` group (key 10) BEFORE
the `Seq = 11` group (key 11), while the claim requires the `Seq = 0` group
after every `Seq > 0` group. -/
theorem C4_counterexample : claimC4 (summaryFinal exC4) = false := by decide

/-- What actually holds of an ordered pair of displayed rows (`a` before
`b`): no row follows the Total row; positive-`Seq` groups are ascending; a
`Seq = 0` group precedes a positive group only if that group's `Seq` is at
least its sentinel key `10`, and follows one only if that group's `Seq` is
at most `10`. -/
def amendedBefore (a b : FinalRow) : Prop :=
  a.Seq ≠ SeqCell.total ∧
  ∀ x y : Int, a.Seq = SeqCell.num x → b.Seq = SeqCell.num y →
    (0 < x → 0 < y → x ≤ y) ∧ (x = 0 → 0 < y → 10 ≤ y) ∧ (0 < x → y = 0 → x ≤ 10)

/-- C4 (amended): the displayed summary is ordered by the sentinel key
`sortKeyVal` (`Seq = 0` mapped to `10`, others to themselves): positive-Seq
groups ascend, a `Seq = 0` group sits after groups with `0 < Seq < 10` and
before groups with `Seq > 10` (order against `Seq = 10` unspecified), and
the Total row is last. -/
theorem C4_thm (ts : List Ticket) :
    List.Pairwise amendedBefore (summaryFinal ts) ∧
    lastIsTotal (summaryFinal ts) = true := by
  constructor
  · rw [summaryFinal, List.pairwise_append]
    refine ⟨?_, List.pairwise_singleton _ _, ?_⟩
    · rw [List.pairwise_map]
      have hs : List.Sorted rowLE (customSort (summaryRows ts)) :=
        List.sorted_insertionSort rowLE (summaryRows ts)
      refine hs.imp ?_
      intro a b hab
      constructor
      · simp [toFinalRow]
      · intro x y hx hy
        have hax : a.Seq = x := by simpa [toFinalRow] using hx
        have hby : b.Seq = y := by simpa [toFinalRow] using hy
        subst hax
        subst hby
        rw [rowLE] at hab
        unfold sortKeyVal at hab
        refine ⟨?_, ?_, ?_⟩ <;> intro h1 h2 <;> split_ifs at hab <;> omega
    · intro a ha b hb
      rw [List.mem_singleton] at hb
      subst hb
      obtain ⟨r, _, rfl⟩ := List.mem_map.mp ha
      constructor
      · simp [toFinalRow]
      · intro x y _ hy
        simp [totalsFinalRow] at hy
  · unfold lastIsTotal
    rw [summaryFinal, List.getLast?_concat]
    rfl

/-! The menu recalculation claim. -/

/-- C9: a catalog row with a well-formed `Series` gets
`Alloc = (end - start) + 1` and `Total_Capacity = Alloc * Admit`, both in
one update; a row with a missing or malformed `Series` is returned exactly
unchanged — neither derived field moves. -/
theorem C9_thm (r : MenuRow) :
    (∀ s st en, r.Series = some s → seriesParse s = some (st, en) →
      recalcRow r = { r with Alloc := (en - st) + 1,
                             Total_Capacity := ((en - st) + 1) * r.Admit }) ∧
    (r.Series = none → recalcRow r = r) ∧
    (∀ s, r.Series = some s → seriesParse s = none → recalcRow r = r) := by
  refine ⟨?_, ?_, ?_⟩
  · intro s st en hs hp
    simp only [recalcRow, hs, hp]
  · intro hs
    simp only [recalcRow, hs]
  · intro s hs hp
    simp only [recalcRow, hs, hp]

def exC9 : MenuRow := ⟨"Public", "VIP", some "101-150", 2, 7, 7⟩

def exC9bad : MenuRow := ⟨"Public", "VIP", some "bad", 2, 50, 100⟩

/-- Witness for C9: the spec's §8 scenario — `Series = "101-150", Admit = 2`
derives `Alloc = 50, Total_Capacity = 100`; `Series = "bad"` leaves the
previously derived values `50`/`100` untouched. -/
theorem C9_witness :
    recalcRow exC9 = ⟨"Public", "VIP", some "101-150", 2, 50, 100⟩ ∧
    recalcRow exC9bad = exC9bad := by
  constructor
  · have h := (C9_thm exC9).1 "101-150" 101 150 rfl (by decide)
    rw [h]
    decide
  · exact (C9_thm exC9bad).2.2 "bad" rfl (by decide)
